import Mathlib

/-!
Verification development for the Liberty Ledger backend
(`functions/api/[[path]].js`, Cloudflare Pages Functions).

The JavaScript source is shallowly embedded: JS numbers are modelled as
exact rationals (ℚ), the D1 database as an explicit `Store` value threaded
through the handlers, and fallible platform primitives (`atob`,
`JSON.parse`, `crypto.subtle`) as `Option`-returning functions.  The
`atob`/`btoa` primitives are modelled concretely after the WHATWG
forgiving-base64 algorithm that the platform implements; `JSON.parse`,
`JSON.stringify` and HMAC-SHA256 are kept abstract as fields of a
`Platform` structure, since their internals do not belong to this
repository.
-/

namespace Ledger

/-! ### String helpers

JavaScript `String.prototype.replace` with a *string* pattern replaces only
the first occurrence.  The source uses this in three places:
`url.pathname.replace('/api', '')`, `header.replace('Bearer ', '')` and the
(global, regex-based) replacements inside the base64url conversions.
-/

def listStartsWith : List Char → List Char → Bool
  | _, [] => true
  | [], _ :: _ => false
  | a :: as, b :: bs => a == b && listStartsWith as bs

/-- Replace the first occurrence of `pat` (as a substring) by `repl`,
like JS `s.replace(pat, repl)` with a plain-string pattern. -/
def replaceFirstAux (pat repl : List Char) : List Char → List Char
  | [] => []
  | c :: cs =>
    if listStartsWith (c :: cs) pat then repl ++ (c :: cs).drop pat.length
    else c :: replaceFirstAux pat repl cs

def replaceFirst (s pat repl : String) : String :=
  ⟨replaceFirstAux pat.data repl.data s.data⟩

/-- JS `token.split('.')`: split on every dot, keeping empty segments
(`''.split('.')` is `['']`, `'a.'.split('.')` is `['a','']`). -/
def splitDotAux : List Char → List Char → List String
  | [], acc => [⟨acc.reverse⟩]
  | c :: cs, acc =>
    if c = '.' then ⟨acc.reverse⟩ :: splitDotAux cs []
    else splitDotAux cs (c :: acc)

def jsSplitDot (s : String) : List String := splitDotAux s.data []

/-! ### Forgiving base64 (`atob` / `btoa`)

`atob` follows the WHATWG forgiving-base64 decode algorithm: ASCII
whitespace is removed, up to two trailing `=` are stripped when the length
is a multiple of 4, a length ≡ 1 (mod 4) or a character outside the
alphabet is an error, and trailing bits that do not complete a byte are
*discarded* (so two strings differing only in those bits decode to the
same bytes).  `btoa` produces the canonical padded encoding. -/

def b64CharVal (c : Char) : Option Nat :=
  if 'A' ≤ c ∧ c ≤ 'Z' then some (c.toNat - 65)
  else if 'a' ≤ c ∧ c ≤ 'z' then some (c.toNat - 97 + 26)
  else if '0' ≤ c ∧ c ≤ '9' then some (c.toNat - 48 + 52)
  else if c = '+' then some 62
  else if c = '/' then some 63
  else none

/-- Accumulate 6-bit groups into bytes; leftover bits at the end are
discarded (forgiving-base64 step 10). -/
def b64Bits : List Nat → Nat → Nat → List Nat
  | [], _, _ => []
  | v :: vs, acc, bits =>
    let acc2 := acc * 64 + v
    let bits2 := bits + 6
    if 8 ≤ bits2 then
      (acc2 / 2 ^ (bits2 - 8)) :: b64Bits vs (acc2 % 2 ^ (bits2 - 8)) (bits2 - 8)
    else b64Bits vs acc2 bits2

def isB64Ws (c : Char) : Bool :=
  c = ' ' || c = '\t' || c = '\n' || c = '\x0d' || c = '\x0c'

def stripPad (cs : List Char) : List Char :=
  match cs.reverse with
  | '=' :: '=' :: rest => rest.reverse
  | '=' :: rest => rest.reverse
  | _ => cs

/-- WHATWG forgiving-base64 decode; `none` models the `DOMException`
thrown by `atob`, which `verify` catches. -/
def atobM (s : String) : Option (List Nat) :=
  let cs0 := s.data.filter (fun c => !isB64Ws c)
  let cs := if cs0.length % 4 = 0 then stripPad cs0 else cs0
  if cs.length % 4 = 1 then none
  else
    match cs.mapM b64CharVal with
    | none => none
    | some vs => some (b64Bits vs 0 0)

def b64Char (n : Nat) : Char :=
  if n < 26 then Char.ofNat (65 + n)
  else if n < 52 then Char.ofNat (97 + (n - 26))
  else if n < 62 then Char.ofNat (48 + (n - 52))
  else if n = 62 then '+' else '/'

/-- Canonical base64 encoding of a byte list (values reduced mod 256, as
`Uint8Array` construction truncates), with `=` padding: models `btoa`
applied to a string of those code units. -/
def btoaCore : List Nat → List Char
  | b1 :: b2 :: b3 :: rest =>
    let x1 := b1 % 256
    let x2 := b2 % 256
    let x3 := b3 % 256
    b64Char (x1 / 4) :: b64Char ((x1 % 4) * 16 + x2 / 16) ::
      b64Char ((x2 % 16) * 4 + x3 / 64) :: b64Char (x3 % 64) :: btoaCore rest
  | [b1, b2] =>
    let x1 := b1 % 256
    let x2 := b2 % 256
    [b64Char (x1 / 4), b64Char ((x1 % 4) * 16 + x2 / 16), b64Char ((x2 % 16) * 4), '=']
  | [b1] =>
    let x1 := b1 % 256
    [b64Char (x1 / 4), b64Char ((x1 % 4) * 16), '=', '=']
  | [] => []

def btoaM (bytes : List Nat) : String := ⟨btoaCore bytes⟩

/-- `btoa` on a JS string: fails (throws) if any code unit exceeds 255. -/
def latin1Bytes (s : String) : Option (List Nat) :=
  if s.data.all (fun c => c.toNat ≤ 255) then some (s.data.map Char.toNat) else none

/-- base64 → base64url conversion used by `sign`: globally replace plus
by dash and slash by underscore, and delete every `=`.  The three
replacements touch pairwise disjoint characters, so the composition is a
single character-wise pass. -/
def b64ToUrl (s : String) : String :=
  ⟨(s.data.filter (fun c => c != '=')).map
    (fun c => if c = '+' then '-' else if c = '/' then '_' else c)⟩

/-- base64url → base64 conversion used by `verify`: globally replace
dash by plus and underscore by slash. -/
def b64urlCharMap (c : Char) : Char :=
  if c = '-' then '+' else if c = '_' then '/' else c

def b64urlToB64 (s : String) : String := ⟨s.data.map b64urlCharMap⟩

def btoaUrl (bytes : List Nat) : String := b64ToUrl (btoaM bytes)

/-! ### JWT payload, platform collaborators, environment -/

/-- The decoded JWT payload object.  `exp` is `none` when the field is
absent (or not a number); JS truthiness of `exp` is `exp = some e` with
`e ≠ 0`. -/
structure JwtPayload where
  user : String
  exp : Option ℚ
deriving DecidableEq

/-- Platform primitives that are not part of this repository.
`hmac secret data` is the HMAC-SHA256 tag as a byte list
(`crypto.subtle.sign` / the recomputation done by `crypto.subtle.verify`);
`parsePayload` is `JSON.parse` on the decoded payload bytes (`none`
models both a parse exception and a falsy parse result, each of which
makes `verify` yield an unauthenticated outcome);
`stringifyHeader` / `stringifyPayload` are `JSON.stringify` of the fixed
header object and of a payload. -/
structure Platform where
  hmac : String → String → List Nat
  parsePayload : List Nat → Option JwtPayload
  stringifyHeader : String
  stringifyPayload : JwtPayload → String

/-- Environment bindings; `none` models an unset variable. -/
structure Env where
  jwtSecret : Option String
  appUsername : Option String
  appPassword : Option String

/-- JS `x || d` for an optional string (both `undefined` and `""` are
falsy). -/
def orElseS (x : Option String) (d : String) : String :=
  match x with
  | none => d
  | some s => if s = "" then d else s

/-- `getSecretKey`: `env.JWT_SECRET || 'a-very-weak-secret-please-change-me-in-prod'`. -/
def getSecretKey (env : Env) : String :=
  orElseS env.jwtSecret "a-very-weak-secret-please-change-me-in-prod"

/-- `base64url(source)` from the source: `btoa(JSON.stringify(source))`
converted to base64url.  `none` models the `btoa` throw on non-latin1
input. -/
def base64urlOf (s : String) : Option String :=
  (latin1Bytes s).map btoaUrl

/-- `sign(payload, env)` (lines 31–44): token =
`base64url(header) ++ "." ++ base64url(payload) ++ "." ++ base64url(hmac)`. -/
def sign (plat : Platform) (secret : String) (payload : JwtPayload) : Option String :=
  match base64urlOf plat.stringifyHeader with
  | none => none
  | some encodedHeader =>
    match base64urlOf (plat.stringifyPayload payload) with
    | none => none
    | some encodedPayload =>
      let data := encodedHeader ++ "." ++ encodedPayload
      some (data ++ "." ++ btoaUrl (plat.hmac secret data))

/-- `verify(token, env)` (lines 47–74).  `now` is `Date.now() / 1000`
(seconds, possibly fractional).  Every branch that throws in JS is caught
by the surrounding `try` and becomes `none`:

* `!token` guard: absent header (`none`) or empty string;
* fewer than three `.`-separated segments: `signature` is `undefined`
  and `signature.replace` throws a `TypeError`;
* `atob` failure on the signature or payload segment;
* `crypto.subtle.verify` returning false (tag mismatch) returns `null`
  directly;
* `JSON.parse` failure (or a falsy parse result, observationally equal);
* expiry: rejected only when `exp` is truthy AND `now > exp` (strict).

Note the first three segments are used and any further segments are
ignored, and the header segment is never itself base64-decoded. -/
def verify (plat : Platform) (secret : String) (now : ℚ) (token : Option String) :
    Option JwtPayload :=
  match token with
  | none => none
  | some t =>
    if t = "" then none
    else
      match jsSplitDot t with
      | header :: payload :: signature :: _ =>
        let data := header ++ "." ++ payload
        match atobM (b64urlToB64 signature) with
        | none => none
        | some signatureBytes =>
          if signatureBytes = plat.hmac secret data then
            match atobM (b64urlToB64 payload) with
            | none => none
            | some payloadBytes =>
              match plat.parsePayload payloadBytes with
              | none => none
              | some decodedPayload =>
                match decodedPayload.exp with
                | some e => if e ≠ 0 ∧ e < now then none else some decodedPayload
                | none => some decodedPayload
          else none
      | _ => none

/-! ### Data model (D1 store)

One field per table, singleton rows as `Option` (the row may be absent;
`UPDATE ... WHERE id = 1` on an absent row is a no-op, modelled by
`Option.map`).  The record tables carry the per-record rate snapshots the
code reads and writes (`rate_cad`, `rate_cny`). -/

structure SavingsConfig where
  goal : ℚ
  interest_rate : ℚ
deriving DecidableEq

structure SavRecord where
  id : Nat
  amount : ℚ
  date : String
  rate_cad : ℚ
  rate_cny : ℚ
deriving DecidableEq

structure EntRecord where
  id : Nat
  amount : ℚ
  currency : String
  note : String
  date : String
  rate_cad : ℚ
  rate_cny : ℚ
deriving DecidableEq

structure RateRow where
  rate : ℚ
  updated_at : String
deriving DecidableEq

structure Store where
  savingsConfig : Option SavingsConfig
  savRecords : List SavRecord
  nextSavId : Nat
  entBalanceRow : Option ℚ
  entRecords : List EntRecord
  nextEntId : Nat
  rateCAD : Option RateRow
  rateCNY : Option RateRow
deriving DecidableEq

/-- JS `x || d` for a number (`0` and `NaN` are falsy; only `0` is
representable here). -/
def orElseQ (x d : ℚ) : ℚ := if x = 0 then d else x

/-- `rates.results.find(r => r.currency === C)?.rate || fallback`. -/
def getRateQ (row : Option RateRow) (fallback : ℚ) : ℚ :=
  match row with
  | none => fallback
  | some r => orElseQ r.rate fallback

/-! ### Responses -/

structure DataResponse where
  goal : ℚ
  current : ℚ
  interestRate : ℚ
  savRecords : List SavRecord
  balance : ℚ
  entRecords : List EntRecord
  rateCADOut : ℚ
  rateCNYOut : ℚ
  updatedAt : Option String
deriving DecidableEq

inductive RespBody
  | empty
  | successB
  | errB (msg : String)
  | loginOkB (token : String)
  | dataB (d : DataResponse)
  | ratesOkB (cad cny : Option ℚ)
deriving DecidableEq

structure HttpResponse where
  status : Nat
  body : RespBody
  cors : Bool
deriving DecidableEq

def successResp : HttpResponse := ⟨200, .successB, true⟩
def notFoundResp : HttpResponse := ⟨404, .errB "Record not found", true⟩
def unauthorizedResp : HttpResponse := ⟨401, .errB "Unauthorized", true⟩
def routeNotFoundResp : HttpResponse := ⟨404, .errB "Not found", true⟩
def serverErrResp (msg : String) : HttpResponse := ⟨500, .errB msg, true⟩
def ratesErrResp : HttpResponse := ⟨500, .errB "Failed to update rates", true⟩

/-! ### Domain handlers (lines 172–310 of the source) -/

def savSum (l : List SavRecord) : ℚ := (l.map SavRecord.amount).sum

/-- `updated_at` accumulation in `getData`: iterate the rate rows in rowid
order (CAD then CNY) and keep the last truthy `updated_at`. -/
def updatedAtFold (rows : List (Option RateRow)) : Option String :=
  rows.foldl
    (fun acc row =>
      match row with
      | some r => if r.updated_at = "" then acc else some r.updated_at
      | none => acc)
    none

/-- `getData` (lines 172–208).  Falsy stored values fall back via `||`:
goal 50000, interest rate 4.5, rates 1.36 / 7.12, balance 0.  The
`ORDER BY date DESC, id DESC` of the two record queries only permutes the
returned lists and is not modelled; no claim depends on the order. -/
def getData (s : Store) : DataResponse :=
  { goal := match s.savingsConfig with
      | none => 50000
      | some c => orElseQ c.goal 50000
    current := savSum s.savRecords
    interestRate := match s.savingsConfig with
      | none => 4.5
      | some c => orElseQ c.interest_rate 4.5
    savRecords := s.savRecords
    balance := match s.entBalanceRow with
      | none => 0
      | some b => orElseQ b 0
    entRecords := s.entRecords
    rateCADOut := match s.rateCAD with
      | none => 1.36
      | some r => orElseQ r.rate 1.36
    rateCNYOut := match s.rateCNY with
      | none => 7.12
      | some r => orElseQ r.rate 7.12
    updatedAt := updatedAtFold [s.rateCAD, s.rateCNY] }

/-- `addSaving` (lines 210–222): snapshot the current rates (with
fallbacks) and append a row. -/
def addSaving (amount : ℚ) (date : String) (s : Store) : HttpResponse × Store :=
  let rateCAD := getRateQ s.rateCAD 1.36
  let rateCNY := getRateQ s.rateCNY 7.12
  (successResp,
    { s with
      savRecords := s.savRecords ++ [⟨s.nextSavId, amount, date, rateCAD, rateCNY⟩]
      nextSavId := s.nextSavId + 1 })

/-- `updateSavingsGoal` (lines 224–228): `UPDATE ... WHERE id = 1`. -/
def updateSavingsGoal (goal : ℚ) (s : Store) : HttpResponse × Store :=
  (successResp,
    { s with savingsConfig := s.savingsConfig.map (fun c => { c with goal := goal }) })

/-- `updateInterestRate` (lines 230–234). -/
def updateInterestRate (rate : ℚ) (s : Store) : HttpResponse × Store :=
  (successResp,
    { s with savingsConfig := s.savingsConfig.map (fun c => { c with interest_rate := rate }) })

/-- `rechargeEntertainment` (lines 236–249): add `amount` to the balance
and insert a record with currency `'USD'`, note `'充值'` and the current
rate snapshots. -/
def rechargeEntertainment (amount : ℚ) (date : String) (s : Store) : HttpResponse × Store :=
  let rateCAD := getRateQ s.rateCAD 1.36
  let rateCNY := getRateQ s.rateCNY 7.12
  (successResp,
    { s with
      entBalanceRow := s.entBalanceRow.map (fun b => b + amount)
      entRecords := s.entRecords ++
        [⟨s.nextEntId, amount, "USD", "充值", date, rateCAD, rateCNY⟩]
      nextEntId := s.nextEntId + 1 })

/-- Rate selection in `addExpense`: `rate = 1`, overridden for CAD / CNY. -/
def expenseRate (currency : String) (rateCAD rateCNY : ℚ) : ℚ :=
  if currency = "CAD" then rateCAD
  else if currency = "CNY" then rateCNY
  else 1

/-- `addExpense` (lines 251–270): subtract `amount / rate` from the
balance and insert a record with the *negated* amount, the request
currency and note (`note || '消费'`), and the rate snapshots. -/
def addExpense (amount : ℚ) (currency : String) (note : Option String) (date : String)
    (s : Store) : HttpResponse × Store :=
  let rateCAD := getRateQ s.rateCAD 1.36
  let rateCNY := getRateQ s.rateCNY 7.12
  let rate := expenseRate currency rateCAD rateCNY
  let usdAmount := amount / rate
  let noteVal := orElseS note "消费"
  (successResp,
    { s with
      entBalanceRow := s.entBalanceRow.map (fun b => b - usdAmount)
      entRecords := s.entRecords ++
        [⟨s.nextEntId, -amount, currency, noteVal, date, rateCAD, rateCNY⟩]
      nextEntId := s.nextEntId + 1 })

/-- `deleteSaving` (lines 272–286): 404 when no row matches, otherwise
delete the row (no balance to reverse, savings total is derived). -/
def deleteSaving (id : Nat) (s : Store) : HttpResponse × Store :=
  match s.savRecords.find? (fun r => r.id == id) with
  | none => (notFoundResp, s)
  | some _ =>
    (successResp, { s with savRecords := s.savRecords.filter (fun r => r.id != id) })

/-- Rate selection in `deleteExpense` (lines 297–299), with the truthiness
guards on the stored snapshots:
`if (record.currency === 'CAD' && record.rate_cad) ... else if (...)`. -/
def deleteRate (r : EntRecord) : ℚ :=
  if r.currency = "CAD" ∧ r.rate_cad ≠ 0 then r.rate_cad
  else if r.currency = "CNY" ∧ r.rate_cny ≠ 0 then r.rate_cny
  else 1

/-- `deleteExpense` (lines 288–310): 404 when no row matches; otherwise
adjust the balance by `|amount| / rate` for a debit (`amount < 0`) or by
`-amount` for a credit, then delete the row. -/
def deleteExpense (id : Nat) (s : Store) : HttpResponse × Store :=
  match s.entRecords.find? (fun r => r.id == id) with
  | none => (notFoundResp, s)
  | some record =>
    let rate := deleteRate record
    let usdAmount := |record.amount| / rate
    let balanceAdjustment := if record.amount < 0 then usdAmount else -record.amount
    (successResp,
      { s with
        entBalanceRow := s.entBalanceRow.map (fun b => b + balanceAdjustment)
        entRecords := s.entRecords.filter (fun r => r.id != id) })

/-! ### Rate refresher (lines 312–337) -/

/-- Result of `response.json()`: a parse failure, or a parsed body whose
`rates` member is either absent (`none`: accessing `.CAD` throws a
`TypeError`) or an object with optional numeric `CAD` / `CNY` fields. -/
inductive RatesBody
  | jsonError
  | jsonOf (rates : Option (Option ℚ × Option ℚ))
deriving DecidableEq

/-- Result of `fetch(...)`: a network rejection, or a response with its
`ok` flag, status and body. -/
inductive FetchRes
  | netError
  | response (ok : Bool) (status : Nat) (body : RatesBody)
deriving DecidableEq

/-- `updateExchangeRates` (lines 316–337): every throw inside the `try`
(network error, non-ok status, JSON parse failure, absent `rates` member)
is caught and reported as a 500 envelope with the store untouched.  Each
of CAD / CNY is upserted only when its field is truthy; the success
response echoes the raw (possibly absent) fields. -/
def updateExchangeRates (f : FetchRes) (nowIso : String) (s : Store) :
    HttpResponse × Store :=
  match f with
  | .netError => (ratesErrResp, s)
  | .response ok _ body =>
    if ok then
      match body with
      | .jsonError => (ratesErrResp, s)
      | .jsonOf none => (ratesErrResp, s)
      | .jsonOf (some (cad, cny)) =>
        let s1 := match cad with
          | some v => if v = 0 then s else { s with rateCAD := some ⟨v, nowIso⟩ }
          | none => s
        let s2 := match cny with
          | some v => if v = 0 then s1 else { s1 with rateCNY := some ⟨v, nowIso⟩ }
          | none => s1
        (⟨200, .ratesOkB cad cny, true⟩, s2)
    else (ratesErrResp, s)

/-! ### Router / dispatcher (lines 79–170) -/

/-- The fields the handlers destructure out of a parsed JSON body; each is
`none` when absent (`undefined`). -/
structure BodyFields where
  username : Option String := none
  password : Option String := none
  amount : Option ℚ := none
  goal : Option ℚ := none
  rate : Option ℚ := none
  currency : Option String := none
  note : Option String := none
  id : Option Nat := none

structure Request where
  method : String
  rawPath : String
  authHeader : Option String
  body : Option BodyFields

/-- `request.headers.get('Authorization')?.replace('Bearer ', '')`: strip
the *first* occurrence of the substring `'Bearer '`; a header without that
substring is passed through unchanged. -/
def stripBearer (h : String) : String := replaceFirst h "Bearer " ""

/-- `url.pathname.replace('/api', '')` (first occurrence). -/
def pathOf (raw : String) : String := replaceFirst raw "/api" ""

/-- `handleLogin` (lines 153–170).  An `undefined` field never equals a
string, so a missing field is simply a credential mismatch; a JSON parse
failure propagates to the dispatcher catch (500).  On success the token
carries `exp = floor(now) + 86400`. -/
def handleLogin (plat : Platform) (env : Env) (now : ℚ) (body : Option BodyFields)
    (s : Store) : HttpResponse × Store :=
  match body with
  | none => (serverErrResp "invalid json body", s)
  | some b =>
    let validUsername := orElseS env.appUsername "admin"
    let validPassword := orElseS env.appPassword "your-password"
    if b.username = some validUsername ∧ b.password = some validPassword then
      let payload : JwtPayload := ⟨validUsername, some ((⌊now⌋ : ℤ) + 86400 : ℚ)⟩
      match sign plat (getSecretKey env) payload with
      | some token => (⟨200, .loginOkB token, true⟩, s)
      | none => (serverErrResp "btoa failure", s)
    else (⟨401, .errB "Invalid credentials", true⟩, s)

/-- Dispatch helper: `await request.json()` failing inside a handler is
caught by the dispatcher catch-all and surfaces as a 500 envelope. -/
def withBody (body : Option BodyFields) (s : Store)
    (k : BodyFields → HttpResponse × Store) : HttpResponse × Store :=
  match body with
  | none => (serverErrResp "invalid json body", s)
  | some b => k b

/-- A required field that is `undefined` makes the D1 `.bind` call throw
before the statement runs; the dispatcher catch-all turns it into a 500
with no store mutation. -/
def bindErr (s : Store) : HttpResponse × Store := (serverErrResp "bind failure", s)

/-- `onRequest` (lines 79–149).  `now` is `Date.now() / 1000`, `nowDate`
the `YYYY-MM-DD` date string handlers stamp on records, `nowIso` the ISO
timestamp used by the rate refresher, and `f` the outcome of the outbound
`fetch`.  Control flow: CORS preflight short-circuit, public routes
(`/login` POST, `/rates/update` GET), then bearer-token extraction and
verification gating every remaining route, then the routing table, then
404. -/
def onRequest (plat : Platform) (env : Env) (now : ℚ) (nowDate nowIso : String)
    (f : FetchRes) (req : Request) (s : Store) : HttpResponse × Store :=
  let path := pathOf req.rawPath
  if req.method = "OPTIONS" then (⟨200, .empty, true⟩, s)
  else if path = "/login" ∧ req.method = "POST" then
    handleLogin plat env now req.body s
  else if path = "/rates/update" ∧ req.method = "GET" then
    updateExchangeRates f nowIso s
  else
    let token := req.authHeader.map stripBearer
    match verify plat (getSecretKey env) now token with
    | none => (unauthorizedResp, s)
    | some _ =>
      if path = "/data" ∧ req.method = "GET" then (⟨200, .dataB (getData s), true⟩, s)
      else if path = "/savings/add" ∧ req.method = "POST" then
        withBody req.body s (fun b =>
          match b.amount with
          | some a => addSaving a nowDate s
          | none => bindErr s)
      else if path = "/savings/update-goal" ∧ req.method = "POST" then
        withBody req.body s (fun b =>
          match b.goal with
          | some g => updateSavingsGoal g s
          | none => bindErr s)
      else if path = "/savings/update-rate" ∧ req.method = "POST" then
        withBody req.body s (fun b =>
          match b.rate with
          | some r => updateInterestRate r s
          | none => bindErr s)
      else if path = "/entertainment/recharge" ∧ req.method = "POST" then
        withBody req.body s (fun b =>
          match b.amount with
          | some a => rechargeEntertainment a nowDate s
          | none => bindErr s)
      else if path = "/entertainment/expense" ∧ req.method = "POST" then
        withBody req.body s (fun b =>
          match b.amount with
          | some a =>
            match b.currency with
            | some c => addExpense a c b.note nowDate s
            | none =>
              -- currency undefined: rate stays 1, the balance UPDATE runs,
              -- then the record INSERT throws on bind(undefined) — the 500
              -- leaves the balance already debited (no transaction).
              (serverErrResp "bind failure",
                { s with entBalanceRow := s.entBalanceRow.map (fun bal => bal - a) })
          | none => bindErr s)
      else if path = "/savings/delete" ∧ req.method = "POST" then
        withBody req.body s (fun b =>
          match b.id with
          | some i => deleteSaving i s
          | none => bindErr s)
      else if path = "/entertainment/delete" ∧ req.method = "POST" then
        withBody req.body s (fun b =>
          match b.id with
          | some i => deleteExpense i s
          | none => bindErr s)
      else (routeNotFoundResp, s)

/-! ### Entertainment operation traces

A trace of the three entertainment mutations, replayed through the
handler functions above; used to state the running-balance invariant. -/

/-- The insertion-time USD conversion rate recorded in a row: the same
selection `addExpense` performed when it created the row (recharge rows
have currency `'USD'`, so their rate is 1). -/
def entInsertRate (r : EntRecord) : ℚ :=
  expenseRate r.currency r.rate_cad r.rate_cny

/-- A row's USD contribution: its (signed) amount converted with its own
stored rate snapshot. -/
def contribUSD (r : EntRecord) : ℚ := r.amount / entInsertRate r

def entSum (l : List EntRecord) : ℚ := (l.map contribUSD).sum

inductive EntOp
  | recharge (amount : ℚ) (date : String)
  | expense (amount : ℚ) (currency : String) (note : Option String) (date : String)
  | deleteOp (id : Nat)

def applyEntOp (s : Store) : EntOp → Store
  | .recharge a d => (rechargeEntertainment a d s).2
  | .expense a c n d => (addExpense a c n d s).2
  | .deleteOp i => (deleteExpense i s).2

def runEntOps (s : Store) (ops : List EntOp) : Store := ops.foldl applyEntOp s

/-- Restriction to expense requests with a nonnegative `amount`
(recharges and deletes are unrestricted). -/
def expenseNonneg : EntOp → Prop
  | .expense a _ _ _ => 0 ≤ a
  | _ => True

/-- Shape invariant of rows produced by the handlers: the rate snapshots
are nonzero (they come through the `|| fallback` defaults) and a
nonnegative amount only occurs on recharge rows (currency `'USD'`) or
zero-amount rows. -/
def goodRec (r : EntRecord) : Prop :=
  r.rate_cad ≠ 0 ∧ r.rate_cny ≠ 0 ∧ (0 ≤ r.amount → r.currency = "USD" ∨ r.amount = 0)

/-- Running invariant: the balance row equals the converted sum of the
remaining rows, all rows are handler-shaped, and ids are fresh and
pairwise distinct. -/
def EntInv (s : Store) : Prop :=
  s.entBalanceRow = some (entSum s.entRecords) ∧
  (∀ r ∈ s.entRecords, goodRec r) ∧
  (∀ r ∈ s.entRecords, r.id < s.nextEntId) ∧
  s.entRecords.Pairwise (fun a b => a.id ≠ b.id)

/-- Overwrite the exchange-rate rows (the effect of a rate refresh between
operations). -/
def setRateRows (rcad rcny : Option RateRow) (s : Store) : Store :=
  { s with rateCAD := rcad, rateCNY := rcny }

/-! ### Concrete fixtures for witnesses and counterexamples -/

/-- The store right after `schema.sql` has initialised the singleton rows
(no records, zero balance, no rate rows). -/
def initStore : Store := ⟨none, [], 1, some 0, [], 1, none, none⟩

def env0 : Env := ⟨none, none, none⟩

/-- A concrete platform instantiation (a stub MAC and a JSON parser
defined on the byte strings the fixtures decode to). -/
def platA : Platform :=
  ⟨fun _ _ => [0],
   fun b =>
     if b = [80] then some ⟨"u", none⟩
     else if b = [0] then some ⟨"u", some 100⟩
     else none,
   "H", fun _ => "P"⟩

def storeW : Store :=
  { initStore with
    savRecords := [⟨1, 5, "d", 1.36, 7.12⟩]
    entRecords := [⟨1, -10, "CAD", "n", "d", 1.36, 7.12⟩]
    nextSavId := 2
    nextEntId := 2
    entBalanceRow := some (125 / 17) }

/-- A store whose configurable values are all legitimately stored zeros. -/
def storeZ : Store := ⟨some ⟨0, 0⟩, [], 1, some 0, [], 1, some ⟨0, "t"⟩, some ⟨0, "t"⟩⟩

/-! ## Claim C3: token expiry -/

/-- Claim C3 (amended).  The expiry check is `exp && now > exp` with a
*strict* comparison: `verify` returns `null` for every token whose
payload carries a *nonzero* numeric `exp` *strictly* less than the
current time (regardless of the signature outcome).  The boundary
`exp = now` is NOT rejected (see the counterexample), and `exp = 0` is
never treated as expired. -/
theorem verify_rejects_expired (plat : Platform) (secret : String) (now : ℚ) (t : String)
    (hseg pseg sseg : String) (rest : List String) (pBytes : List Nat) (p : JwtPayload)
    (e : ℚ) (hsplit : jsSplitDot t = hseg :: pseg :: sseg :: rest)
    (hdec : atobM (b64urlToB64 pseg) = some pBytes)
    (hparse : plat.parsePayload pBytes = some p)
    (hexp : p.exp = some e) (hne : e ≠ 0) (hlt : e < now) :
    verify plat secret now (some t) = none := by
  have hte : t ≠ "" := by
    intro h0
    rw [h0] at hsplit
    simp [jsSplitDot, splitDotAux] at hsplit
  rcases hsig : atobM (b64urlToB64 sseg) with _ | sigBytes
  · simp [verify, hte, hsplit, hsig]
  · by_cases hmac : sigBytes = plat.hmac secret (hseg ++ "." ++ pseg)
    · simp [verify, hte, hsplit, hsig, hmac, hdec, hparse, hexp, hne, hlt]
    · simp [verify, hte, hsplit, hsig, hmac]

/-- Claim C3, witness: a token carrying `exp = 100` is rejected at
`now = 200`. -/
theorem verify_rejects_expired_witness :
    verify platA "secret" 200 (some "h.AA.AA") = none :=
  verify_rejects_expired platA "secret" 200 "h.AA.AA" "h" "AA" "AA" [] [0]
    ⟨"u", some 100⟩ 100 (by decide) (by decide) (by decide) rfl
    (by norm_num) (by norm_num)

/-- Claim C3, counterexample: a token whose `exp` is exactly equal to the
current time (`exp = now = 100`) is NOT rejected — `verify` returns the
payload, while the claim requires `null` for every `exp ≤ now`. -/
theorem verify_rejects_expired_cex :
    verify platA "secret" 100 (some "h.AA.AA") = some ⟨"u", some 100⟩ ∧
      (100 : ℚ) ≤ 100 :=
  ⟨by decide, le_refl 100⟩

/-! ## Claim C4: fail-closed verification -/

/-- Claim C4 (amended).  `verify` is a total function and every decoding
failure yields `none` (the JS exception is caught inside `verify`, so the
dispatcher answers 401, never 500): an absent token, a token with fewer
than three `.`-separated segments, malformed base64url in the *signature*
or *payload* segment, a signature mismatch, and a payload JSON parse
failure all return `none`.  (As the counterexample shows, the original
claim's "malformed base64url in any segment" is too strong: the header
segment is never itself decoded, it is only covered by the signature.) -/
theorem verify_fail_closed (plat : Platform) (secret : String) (now : ℚ) :
    verify plat secret now none = none ∧
    (∀ t : String, (jsSplitDot t).length < 3 → verify plat secret now (some t) = none) ∧
    (∀ t hseg pseg sseg rest, jsSplitDot t = hseg :: pseg :: sseg :: rest →
      atobM (b64urlToB64 sseg) = none → verify plat secret now (some t) = none) ∧
    (∀ t hseg pseg sseg rest sigBytes, jsSplitDot t = hseg :: pseg :: sseg :: rest →
      atobM (b64urlToB64 sseg) = some sigBytes →
      sigBytes ≠ plat.hmac secret (hseg ++ "." ++ pseg) →
      verify plat secret now (some t) = none) ∧
    (∀ t hseg pseg sseg rest, jsSplitDot t = hseg :: pseg :: sseg :: rest →
      atobM (b64urlToB64 pseg) = none → verify plat secret now (some t) = none) ∧
    (∀ t hseg pseg sseg rest pBytes, jsSplitDot t = hseg :: pseg :: sseg :: rest →
      atobM (b64urlToB64 pseg) = some pBytes → plat.parsePayload pBytes = none →
      verify plat secret now (some t) = none) := by
  refine ⟨rfl, ?_, ?_, ?_, ?_, ?_⟩
  · intro t hlen
    by_cases hte : t = ""
    · rw [hte]; rfl
    · rcases hsp : jsSplitDot t with _ | ⟨h1, _ | ⟨h2, _ | ⟨h3, rest⟩⟩⟩
      · simp [verify, hte, hsp]
      · simp [verify, hte, hsp]
      · simp [verify, hte, hsp]
      · rw [hsp] at hlen
        simp only [List.length_cons] at hlen
        omega
  · intro t hseg pseg sseg rest hsplit hsig
    have hte : t ≠ "" := by
      intro h0; rw [h0] at hsplit; simp [jsSplitDot, splitDotAux] at hsplit
    simp [verify, hte, hsplit, hsig]
  · intro t hseg pseg sseg rest sigBytes hsplit hsig hne
    have hte : t ≠ "" := by
      intro h0; rw [h0] at hsplit; simp [jsSplitDot, splitDotAux] at hsplit
    simp [verify, hte, hsplit, hsig, hne]
  · intro t hseg pseg sseg rest hsplit hpb
    have hte : t ≠ "" := by
      intro h0; rw [h0] at hsplit; simp [jsSplitDot, splitDotAux] at hsplit
    rcases hsig : atobM (b64urlToB64 sseg) with _ | sigBytes
    · simp [verify, hte, hsplit, hsig]
    · by_cases hmac : sigBytes = plat.hmac secret (hseg ++ "." ++ pseg)
      · simp [verify, hte, hsplit, hsig, hmac, hpb]
      · simp [verify, hte, hsplit, hsig, hmac]
  · intro t hseg pseg sseg rest pBytes hsplit hpb hparse
    have hte : t ≠ "" := by
      intro h0; rw [h0] at hsplit; simp [jsSplitDot, splitDotAux] at hsplit
    rcases hsig : atobM (b64urlToB64 sseg) with _ | sigBytes
    · simp [verify, hte, hsplit, hsig]
    · by_cases hmac : sigBytes = plat.hmac secret (hseg ++ "." ++ pseg)
      · simp [verify, hte, hsplit, hsig, hmac, hpb, hparse]
      · simp [verify, hte, hsplit, hsig, hmac]

/-- Claim C4, witness: a token with a single segment is rejected with
`none` (the JS `TypeError` on `signature.replace` is caught). -/
theorem verify_fail_closed_witness :
    verify platA "secret" 0 (some "abc") = none :=
  (verify_fail_closed platA "secret" 0).2.1 "abc" (by decide)

/-- Claim C4, counterexample: `"#"` is not valid base64url, yet a token
whose *header* segment is `"#"` is accepted whenever the signature over
`"#.AA"` matches, because the header segment is never itself decoded —
refuting "malformed base64url in any segment results in null". -/
theorem verify_fail_closed_cex :
    verify platA "secret" 0 (some "#.AA.AA") = some ⟨"u", some 100⟩ ∧
      atobM (b64urlToB64 "#") = none :=
  ⟨by decide, by decide⟩

/-! ## Claim C5: signature required before payload trust -/

/-- Claim C5 (amended).  `verify` returns a payload only if the third
segment base64url-decodes to exactly the HMAC-SHA256 tag recomputed over
`first ++ "." ++ second` under the configured secret, and the payload is
decoded and parsed only in that case.  (The original claim's "any
alteration of the signature segment causes rejection" fails: an
alteration confined to the trailing bits that forgiving-base64 discards
decodes to the same tag bytes and is still accepted — see the
counterexample.) -/
theorem verify_requires_signature (plat : Platform) (secret : String) (now : ℚ)
    (t : String) (p : JwtPayload) (h : verify plat secret now (some t) = some p) :
    ∃ hseg pseg sseg rest sigBytes pBytes,
      jsSplitDot t = hseg :: pseg :: sseg :: rest ∧
      atobM (b64urlToB64 sseg) = some sigBytes ∧
      sigBytes = plat.hmac secret (hseg ++ "." ++ pseg) ∧
      atobM (b64urlToB64 pseg) = some pBytes ∧
      plat.parsePayload pBytes = some p := by
  by_cases hte : t = ""
  · rw [hte] at h; simp [verify] at h
  · rcases hsp : jsSplitDot t with _ | ⟨hseg, _ | ⟨pseg, _ | ⟨sseg, rest⟩⟩⟩
    · simp [verify, hte, hsp] at h
    · simp [verify, hte, hsp] at h
    · simp [verify, hte, hsp] at h
    · rcases hsig : atobM (b64urlToB64 sseg) with _ | sigBytes
      · simp [verify, hte, hsp, hsig] at h
      · by_cases hmac : sigBytes = plat.hmac secret (hseg ++ "." ++ pseg)
        · rcases hpb : atobM (b64urlToB64 pseg) with _ | pBytes
          · simp [verify, hte, hsp, hsig, hmac, hpb] at h
          · rcases hpp : plat.parsePayload pBytes with _ | q
            · simp [verify, hte, hsp, hsig, hmac, hpb, hpp] at h
            · have hqp : q = p := by
                rcases hqe : q.exp with _ | e
                · simp [verify, hte, hsp, hsig, hmac, hpb, hpp, hqe] at h
                  exact h
                · by_cases hcond : e ≠ 0 ∧ e < now
                  · simp [verify, hte, hsp, hsig, hmac, hpb, hpp, hqe, hcond] at h
                  · simp [verify, hte, hsp, hsig, hmac, hpb, hpp, hqe, hcond] at h
                    exact h
              exact ⟨hseg, pseg, sseg, rest, sigBytes, pBytes, rfl, hsig,
                hmac, hpb, hqp ▸ hpp⟩
        · simp [verify, hte, hsp, hsig, hmac] at h

/-- Claim C5, witness: the accepted token `"SA.UA.AA"` does carry a valid
signature over its first two segments. -/
theorem verify_requires_signature_witness :
    ∃ hseg pseg sseg rest sigBytes pBytes,
      jsSplitDot "SA.UA.AA" = hseg :: pseg :: sseg :: rest ∧
      atobM (b64urlToB64 sseg) = some sigBytes ∧
      sigBytes = platA.hmac "secret" (hseg ++ "." ++ pseg) ∧
      atobM (b64urlToB64 pseg) = some pBytes ∧
      platA.parsePayload pBytes = some ⟨"u", none⟩ :=
  verify_requires_signature platA "secret" 0 "SA.UA.AA" ⟨"u", none⟩ (by decide)

/-- Claim C5, counterexample: `sign` issues the token `"SA.UA.AA"`; the
token `"SA.UA.AB"` — an alteration of the signature segment only — is
still accepted, because `"AB"` and `"AA"` base64-decode to the same byte
(the final two bits are discarded by forgiving-base64).  This refutes
"any alteration of the signature segment of a validly issued token causes
verify to return null". -/
theorem verify_requires_signature_cex :
    sign platA "secret" ⟨"u", none⟩ = some "SA.UA.AA" ∧
      ("SA.UA.AB" : String) ≠ "SA.UA.AA" ∧
      verify platA "secret" 0 (some "SA.UA.AB") = some ⟨"u", none⟩ :=
  ⟨by decide, by decide, by decide⟩

/-! ## Claim C6: the bearer-token gate -/

/-- Claim C6 (amended).  On every non-preflight request outside the two
public routes, the dispatcher answers 401 with the store untouched — and
no handler runs — when the `Authorization` header is absent, and more
generally whenever the header with its first `'Bearer '` substring
removed fails verification.  (The original "wrong scheme ⇒ 401" is too
strong: the code merely strips the substring `'Bearer '`, so a header
that is a bare valid token without the Bearer scheme is accepted — see
the counterexample.) -/
theorem auth_gate_401 (plat : Platform) (env : Env) (now : ℚ) (nowDate nowIso : String)
    (f : FetchRes) (req : Request) (s : Store)
    (hm : req.method ≠ "OPTIONS")
    (hlogin : ¬(pathOf req.rawPath = "/login" ∧ req.method = "POST"))
    (hrates : ¬(pathOf req.rawPath = "/rates/update" ∧ req.method = "GET"))
    (hauth : req.authHeader = none ∨
      verify plat (getSecretKey env) now (req.authHeader.map stripBearer) = none) :
    onRequest plat env now nowDate nowIso f req s = (unauthorizedResp, s) := by
  have hv : verify plat (getSecretKey env) now (req.authHeader.map stripBearer) = none := by
    rcases hauth with h0 | hv
    · rw [h0]; rfl
    · exact hv
  simp [onRequest, hm, hlogin, hrates, hv]

/-- Claim C6, witness: a GET of the protected `/data` route with no
`Authorization` header is answered 401 and mutates nothing. -/
theorem auth_gate_401_witness :
    onRequest platA env0 0 "d" "t" FetchRes.netError
        ⟨"GET", "/api/data", none, none⟩ initStore = (unauthorizedResp, initStore) :=
  auth_gate_401 platA env0 0 "d" "t" FetchRes.netError
    ⟨"GET", "/api/data", none, none⟩ initStore
    (by decide) (by decide) (by decide) (Or.inl rfl)

/-- Claim C6, counterexample: an `Authorization` header that does not use
the Bearer scheme at all — it is a bare signed token — is accepted: the
request reaches the `getData` handler and is answered 200, not 401. -/
theorem auth_gate_401_cex :
    (onRequest platA env0 0 "d" "t" FetchRes.netError
        ⟨"GET", "/api/data", some "SA.UA.AA", none⟩ initStore).1.status = 200 ∧
      listStartsWith "SA.UA.AA".data "Bearer ".data = false :=
  ⟨by decide, by decide⟩

/-! ## Claim C7: rate-refresh failure handling -/

/-- Claim C7 (amended).  Every failure of the upstream call — a network
error, a non-success HTTP status, an unparseable body, or a body whose
`rates` member is absent — is caught: the synchronous endpoint returns
the 500 error envelope and the stored exchange-rate rows (the whole
store) are left unchanged.  (The original claim also demanded a 500 when
the individual `CAD`/`CNY` *fields* are missing from a present `rates`
object; the code instead returns a 200 success and simply skips the
upserts — see the counterexample.) -/
theorem ratesUpdate_failure_500 (s : Store) (nowIso : String) :
    updateExchangeRates .netError nowIso s = (ratesErrResp, s) ∧
    (∀ st b, updateExchangeRates (.response false st b) nowIso s = (ratesErrResp, s)) ∧
    (∀ ok st, updateExchangeRates (.response ok st .jsonError) nowIso s = (ratesErrResp, s)) ∧
    (∀ ok st, updateExchangeRates (.response ok st (.jsonOf none)) nowIso s = (ratesErrResp, s)) ∧
    ratesErrResp.status = 500 := by
  refine ⟨rfl, fun st b => rfl, fun ok st => ?_, fun ok st => ?_, rfl⟩
  · cases ok <;> rfl
  · cases ok <;> rfl

/-- Claim C7, counterexample: an OK upstream response whose `rates`
object is present but carries neither `CAD` nor `CNY` yields a 200
success envelope (echoing the absent fields), not a 500. -/
theorem ratesUpdate_failure_500_cex :
    updateExchangeRates (.response true 200 (.jsonOf (some (none, none)))) "t" initStore =
      (⟨200, .ratesOkB none none, true⟩, initStore) := rfl

/-! ## Claim C8: delete handlers -/

/-- Claim C8.  For both delete handlers: an id matching no stored record
yields the 404 envelope with the store completely unchanged; an id that
matches yields the success response and afterwards no record with that id
remains. -/
theorem delete_notfound_contract (s : Store) (i : Nat) :
    notFoundResp.status = 404 ∧
    (s.savRecords.find? (fun r => r.id == i) = none →
      deleteSaving i s = (notFoundResp, s)) ∧
    (∀ r, s.savRecords.find? (fun r2 => r2.id == i) = some r →
      (deleteSaving i s).1 = successResp ∧
      ∀ r2 ∈ (deleteSaving i s).2.savRecords, r2.id ≠ i) ∧
    (s.entRecords.find? (fun r => r.id == i) = none →
      deleteExpense i s = (notFoundResp, s)) ∧
    (∀ r, s.entRecords.find? (fun r2 => r2.id == i) = some r →
      (deleteExpense i s).1 = successResp ∧
      ∀ r2 ∈ (deleteExpense i s).2.entRecords, r2.id ≠ i) := by
  refine ⟨rfl, ?_, ?_, ?_, ?_⟩
  · intro hn
    simp [deleteSaving, hn]
  · intro r hr
    constructor
    · simp [deleteSaving, hr]
    · intro r2 hr2
      simp only [deleteSaving, hr] at hr2
      have := (List.mem_filter.mp hr2).2
      simpa using this
  · intro hn
    simp [deleteExpense, hn]
  · intro r hr
    constructor
    · simp [deleteExpense, hr]
    · intro r2 hr2
      simp only [deleteExpense, hr] at hr2
      have := (List.mem_filter.mp hr2).2
      simpa using this

/-- Claim C8, witness: on a store holding one savings record and one
entertainment record (id 1), id 99 yields 404 with the store unchanged,
and id 1 succeeds and removes the record, for both handlers. -/
theorem delete_notfound_contract_witness :
    deleteSaving 99 storeW = (notFoundResp, storeW) ∧
    deleteExpense 99 storeW = (notFoundResp, storeW) ∧
    (deleteSaving 1 storeW).1 = successResp ∧
    (∀ r2 ∈ (deleteSaving 1 storeW).2.savRecords, r2.id ≠ 1) ∧
    (deleteExpense 1 storeW).1 = successResp ∧
    (∀ r2 ∈ (deleteExpense 1 storeW).2.entRecords, r2.id ≠ 1) :=
  ⟨(delete_notfound_contract storeW 99).2.1 (by decide),
   (delete_notfound_contract storeW 99).2.2.2.1 (by decide),
   ((delete_notfound_contract storeW 1).2.2.1 ⟨1, 5, "d", 1.36, 7.12⟩
     (by with_unfolding_all decide)).1,
   ((delete_notfound_contract storeW 1).2.2.1 ⟨1, 5, "d", 1.36, 7.12⟩
     (by with_unfolding_all decide)).2,
   ((delete_notfound_contract storeW 1).2.2.2.2 ⟨1, -10, "CAD", "n", "d", 1.36, 7.12⟩
     (by with_unfolding_all decide)).1,
   ((delete_notfound_contract storeW 1).2.2.2.2 ⟨1, -10, "CAD", "n", "d", 1.36, 7.12⟩
     (by with_unfolding_all decide)).2⟩

/-! ## Claim C9: CORS preflight -/

/-- Claim C9.  Every OPTIONS request — whatever its path, header or body —
is answered immediately with status 200, an empty body and the CORS
headers, before the auth check and before any handler, with the store
untouched. -/
theorem options_preflight (plat : Platform) (env : Env) (now : ℚ)
    (nowDate nowIso : String) (f : FetchRes) (req : Request) (s : Store)
    (h : req.method = "OPTIONS") :
    onRequest plat env now nowDate nowIso f req s = (⟨200, .empty, true⟩, s) := by
  simp [onRequest, h]

/-- Claim C9, witness: an OPTIONS request with an arbitrary path and no
credentials gets the empty 200. -/
theorem options_preflight_witness :
    onRequest platA env0 0 "d" "t" FetchRes.netError
        ⟨"OPTIONS", "/api/anything", none, none⟩ initStore =
      (⟨200, .empty, true⟩, initStore) :=
  options_preflight platA env0 0 "d" "t" FetchRes.netError
    ⟨"OPTIONS", "/api/anything", none, none⟩ initStore rfl

/-! ## Claim C10: GET /data fallback defaults -/

/-- Claim C10.  `getData` substitutes the fallback for every falsy stored
configuration value: goal 0 ↦ 50000, interest rate 0 ↦ 4.5, CAD rate 0 ↦
1.36, CNY rate 0 ↦ 7.12 — indistinguishable from an absent row, which
yields the same defaults — while a stored entertainment balance of 0 is
reported as 0. -/
theorem getData_fallback_defaults (s : Store) :
    (∀ c, s.savingsConfig = some c → c.goal = 0 → (getData s).goal = 50000) ∧
    (∀ c, s.savingsConfig = some c → c.interest_rate = 0 →
      (getData s).interestRate = 4.5) ∧
    (∀ r, s.rateCAD = some r → r.rate = 0 → (getData s).rateCADOut = 1.36) ∧
    (∀ r, s.rateCNY = some r → r.rate = 0 → (getData s).rateCNYOut = 7.12) ∧
    (s.entBalanceRow = some 0 → (getData s).balance = 0) ∧
    (s.savingsConfig = none → (getData s).goal = 50000) := by
  refine ⟨?_, ?_, ?_, ?_, ?_, ?_⟩
  · intro c hc h0; simp [getData, hc, orElseQ, h0]
  · intro c hc h0; simp [getData, hc, orElseQ, h0]
  · intro r hr h0; simp [getData, hr, orElseQ, h0]
  · intro r hr h0; simp [getData, hr, orElseQ, h0]
  · intro hb; simp [getData, hb, orElseQ]
  · intro hc; simp [getData, hc]

/-- Claim C10, witness: on a store whose stored goal, interest rate and
both rates are all the legitimate value 0 and whose balance is 0, the
response carries the four defaults and balance 0. -/
theorem getData_fallback_defaults_witness :
    (getData storeZ).goal = 50000 ∧ (getData storeZ).interestRate = 4.5 ∧
      (getData storeZ).rateCADOut = 1.36 ∧ (getData storeZ).rateCNYOut = 7.12 ∧
      (getData storeZ).balance = 0 :=
  ⟨(getData_fallback_defaults storeZ).1 ⟨0, 0⟩ rfl rfl,
   (getData_fallback_defaults storeZ).2.1 ⟨0, 0⟩ rfl rfl,
   (getData_fallback_defaults storeZ).2.2.1 ⟨0, "t"⟩ rfl rfl,
   (getData_fallback_defaults storeZ).2.2.2.1 ⟨0, "t"⟩ rfl rfl,
   (getData_fallback_defaults storeZ).2.2.2.2.1 rfl⟩

/-! ## Claims C1 and C2: the entertainment balance invariant

Helper lemmas about `entSum`, the rate selections and record removal. -/

theorem entSum_nil : entSum [] = 0 := rfl

theorem entSum_cons (r : EntRecord) (l : List EntRecord) :
    entSum (r :: l) = contribUSD r + entSum l := by
  simp [entSum]

theorem entSum_append (l1 l2 : List EntRecord) :
    entSum (l1 ++ l2) = entSum l1 + entSum l2 := by
  simp [entSum]

theorem getRateQ_ne_zero (row : Option RateRow) (fb : ℚ) (h : fb ≠ 0) :
    getRateQ row fb ≠ 0 := by
  cases row with
  | none => exact h
  | some r =>
    simp only [getRateQ, orElseQ]
    split_ifs with hr
    · exact h
    · exact hr

/-- On a record whose stored snapshots are nonzero, the truthiness-guarded
rate selection of `deleteExpense` coincides with the plain selection used
at insertion time. -/
theorem deleteRate_eq_entInsertRate (r : EntRecord) (h1 : r.rate_cad ≠ 0)
    (h2 : r.rate_cny ≠ 0) : deleteRate r = entInsertRate r := by
  unfold deleteRate entInsertRate expenseRate
  by_cases hc : r.currency = "CAD"
  · simp [hc, h1]
  · by_cases hn : r.currency = "CNY"
    · simp [hc, hn, h2]
    · simp [hc, hn]

/-- The balance adjustment computed by `deleteExpense` is exactly the
negation of the record's stored USD contribution, for handler-shaped
records. -/
theorem balanceAdj_eq_neg_contrib (r : EntRecord) (h : goodRec r) :
    (if r.amount < 0 then |r.amount| / deleteRate r else -r.amount) = -contribUSD r := by
  obtain ⟨h1, h2, h3⟩ := h
  by_cases hlt : r.amount < 0
  · rw [if_pos hlt, abs_of_neg hlt, deleteRate_eq_entInsertRate r h1 h2,
      contribUSD, neg_div]
  · rw [if_neg hlt]
    rcases h3 (not_lt.mp hlt) with hu | hz
    · rw [contribUSD, entInsertRate, hu]
      simp [expenseRate]
    · rw [contribUSD, hz]
      simp

/-- Removing a record by id from a list with pairwise-distinct ids removes
its contribution from the converted sum. -/
theorem entSum_filter_erase (l : List EntRecord) (r : EntRecord)
    (hp : l.Pairwise (fun a b => a.id ≠ b.id)) (hm : r ∈ l) :
    entSum (l.filter (fun x => x.id != r.id)) = entSum l - contribUSD r := by
  induction l with
  | nil => cases hm
  | cons x xs ih =>
    rw [List.pairwise_cons] at hp
    obtain ⟨hx, hp2⟩ := hp
    rcases List.mem_cons.mp hm with rfl | hm2
    · rw [List.filter_cons_of_neg (by simp)]
      rw [List.filter_eq_self.mpr (fun y hy => by simpa using (hx y hy).symm),
        entSum_cons]
      ring
    · rw [List.filter_cons_of_pos (by simpa using hx r hm2), entSum_cons,
        entSum_cons, ih hp2 hm2]
      ring

theorem find?_append_left_none {α : Type} (p : α → Bool) (l1 l2 : List α)
    (h : l1.find? p = none) : (l1 ++ l2).find? p = l2.find? p := by
  induction l1 with
  | nil => rfl
  | cons a as ih =>
    cases hpa : p a with
    | true =>
      rw [List.find?_cons_of_pos _ hpa] at h
      cases h
    | false =>
      rw [List.find?_cons_of_neg _ (by simp [hpa])] at h
      rw [List.cons_append, List.find?_cons_of_neg _ (by simp [hpa])]
      exact ih h

/-- Every handler step preserves the balance invariant, provided expense
amounts are nonnegative. -/
theorem entInv_applyOp (s : Store) (op : EntOp) (h : EntInv s)
    (hop : expenseNonneg op) : EntInv (applyEntOp s op) := by
  obtain ⟨hbal, hgood, hid, hpw⟩ := h
  cases op with
  | recharge a d =>
    refine ⟨?_, ?_, ?_, ?_⟩
    · simp only [applyEntOp, rechargeEntertainment]
      rw [hbal]
      simp [entSum_append, entSum_cons, entSum_nil, contribUSD, entInsertRate,
        expenseRate]
    · intro r hr
      simp only [applyEntOp, rechargeEntertainment] at hr
      rcases List.mem_append.mp hr with hr1 | hr2
      · exact hgood r hr1
      · rw [List.mem_singleton] at hr2
        subst hr2
        exact ⟨getRateQ_ne_zero _ _ (by norm_num), getRateQ_ne_zero _ _ (by norm_num),
          fun _ => Or.inl rfl⟩
    · intro r hr
      simp only [applyEntOp, rechargeEntertainment] at hr ⊢
      rcases List.mem_append.mp hr with hr1 | hr2
      · exact Nat.lt_succ_of_lt (hid r hr1)
      · rw [List.mem_singleton] at hr2
        subst hr2
        exact Nat.lt_succ_self _
    · simp only [applyEntOp, rechargeEntertainment]
      refine List.pairwise_append.mpr ⟨hpw, List.pairwise_singleton _ _, ?_⟩
      intro a1 ha1 b1 hb1
      rw [List.mem_singleton] at hb1
      subst hb1
      exact Nat.ne_of_lt (hid a1 ha1)
  | expense a c n d =>
    have ha : 0 ≤ a := hop
    refine ⟨?_, ?_, ?_, ?_⟩
    · simp only [applyEntOp, addExpense]
      rw [hbal]
      simp only [Option.map_some', entSum_append, entSum_cons, entSum_nil,
        contribUSD, entInsertRate]
      rw [neg_div]
      ring_nf
    · intro r hr
      simp only [applyEntOp, addExpense] at hr
      rcases List.mem_append.mp hr with hr1 | hr2
      · exact hgood r hr1
      · rw [List.mem_singleton] at hr2
        subst hr2
        refine ⟨getRateQ_ne_zero _ _ (by norm_num), getRateQ_ne_zero _ _ (by norm_num),
          fun h0 => Or.inr ?_⟩
        exact neg_eq_zero.mpr (le_antisymm (neg_nonneg.mp h0) ha)
    · intro r hr
      simp only [applyEntOp, addExpense] at hr ⊢
      rcases List.mem_append.mp hr with hr1 | hr2
      · exact Nat.lt_succ_of_lt (hid r hr1)
      · rw [List.mem_singleton] at hr2
        subst hr2
        exact Nat.lt_succ_self _
    · simp only [applyEntOp, addExpense]
      refine List.pairwise_append.mpr ⟨hpw, List.pairwise_singleton _ _, ?_⟩
      intro a1 ha1 b1 hb1
      rw [List.mem_singleton] at hb1
      subst hb1
      exact Nat.ne_of_lt (hid a1 ha1)
  | deleteOp i =>
    rcases hfind : s.entRecords.find? (fun r => r.id == i) with _ | r
    · simp only [applyEntOp, deleteExpense, hfind]
      exact ⟨hbal, hgood, hid, hpw⟩
    · have hmem := List.mem_of_find?_eq_some hfind
      have hri : r.id = i := by simpa using List.find?_some hfind
      subst hri
      refine ⟨?_, ?_, ?_, ?_⟩
      · simp only [applyEntOp, deleteExpense, hfind]
        rw [hbal]
        simp only [Option.map_some']
        rw [entSum_filter_erase s.entRecords r hpw hmem,
          balanceAdj_eq_neg_contrib r (hgood r hmem)]
        ring_nf
      · intro r2 hr2
        simp only [applyEntOp, deleteExpense, hfind] at hr2
        exact hgood r2 (List.mem_filter.mp hr2).1
      · intro r2 hr2
        simp only [applyEntOp, deleteExpense, hfind] at hr2 ⊢
        exact hid r2 (List.mem_filter.mp hr2).1
      · simp only [applyEntOp, deleteExpense, hfind]
        exact hpw.filter _

theorem entInv_runEntOps (ops : List EntOp) (s : Store) (h : EntInv s)
    (hops : ∀ op ∈ ops, expenseNonneg op) : EntInv (runEntOps s ops) := by
  induction ops generalizing s with
  | nil => exact h
  | cons op ops ih =>
    exact ih (applyEntOp s op)
      (entInv_applyOp s op h (hops op (List.mem_cons_self op ops)))
      (fun o ho => hops o (List.mem_cons_of_mem op ho))

/-- Claim C1 (amended).  Starting from a zero balance and no records, after
any sequence of recharge, expense and delete operations *in which every
expense carries a nonnegative amount*, the stored balance equals the sum
of the remaining records' amounts converted to USD with each record's own
stored rate snapshot (recharge rows, stored in USD, contribute their
amount; an expense of amount `a` in currency `c` is stored as `-a` and
contributes `-a` divided by the stored rate for `c`).  (The restriction is
forced by the counterexample: an expense called with a *negative* amount
is stored as a positive non-USD row, and `deleteExpense` then reverses it
as if it were a USD recharge, breaking the invariant.) -/
theorem entBalance_invariant (s : Store) (ops : List EntOp)
    (hbal : s.entBalanceRow = some 0) (hrec : s.entRecords = [])
    (hops : ∀ op ∈ ops, expenseNonneg op) :
    (runEntOps s ops).entBalanceRow = some (entSum (runEntOps s ops).entRecords) := by
  have h0 : EntInv s := by
    refine ⟨?_, ?_, ?_, ?_⟩
    · rw [hbal, hrec]; rfl
    · intro r hr; rw [hrec] at hr; cases hr
    · intro r hr; rw [hrec] at hr; cases hr
    · rw [hrec]; exact List.Pairwise.nil
  exact (entInv_runEntOps ops s h0 hops).1

/-- Claim C1, witness: the spec's own example — recharge 100 USD then
spend 50 CAD at the fallback rate 1.36 — keeps balance = converted sum
(both are 100 − 50 / 1.36). -/
theorem entBalance_invariant_witness :
    (runEntOps initStore
        [.recharge 100 "d", .expense 50 "CAD" none "d"]).entBalanceRow =
      some (entSum (runEntOps initStore
        [.recharge 100 "d", .expense 50 "CAD" none "d"]).entRecords) :=
  entBalance_invariant initStore _ rfl rfl (by
    intro op hop
    simp only [List.mem_cons, List.not_mem_nil, or_false] at hop
    rcases hop with rfl | rfl
    · trivial
    · norm_num [expenseNonneg])

/-- Claim C1, counterexample: an expense of −10 CAD followed by deletion
of the created record leaves balance −45/17 while no records remain (sum
0): the claim fails for sequences with negative expense amounts. -/
theorem entBalance_invariant_cex :
    (runEntOps initStore
        [.expense (-10) "CAD" none "d", .deleteOp 1]).entBalanceRow ≠
      some (entSum (runEntOps initStore
        [.expense (-10) "CAD" none "d", .deleteOp 1]).entRecords) := by
  with_unfolding_all decide

/-- Finding and filtering the freshly appended record. -/
theorem insert_delete_aux (s : Store) (R : EntRecord)
    (hfresh : ∀ r ∈ s.entRecords, r.id ≠ s.nextEntId) (hRid : R.id = s.nextEntId) :
    (s.entRecords ++ [R]).find? (fun r => r.id == s.nextEntId) = some R ∧
    (s.entRecords ++ [R]).filter (fun r => r.id != s.nextEntId) = s.entRecords := by
  constructor
  · rw [find?_append_left_none _ _ _
      (List.find?_eq_none.mpr (fun x hx => by simpa using hfresh x hx))]
    rw [List.find?_cons_of_pos _ (by simp [hRid])]
  · rw [List.filter_append,
      List.filter_eq_self.mpr (fun x hx => by simpa using hfresh x hx)]
    simp [hRid]

/-- Claim C2 (amended).  Deleting a record immediately after inserting it
restores both the balance and the record list exactly — even when the
live exchange-rate rows have been overwritten arbitrarily in between,
because `deleteExpense` reverses using the record's *own stored* rate:
for an expense with nonnegative amount in any currency, and for a
recharge of any amount.  (The nonnegativity restriction on expenses is
forced by the counterexample: a negative-amount expense is stored as a
positive non-USD row and is reversed as if it were a USD recharge.) -/
theorem deleteExpense_inverts_insert (s : Store) (rcad rcny : Option RateRow)
    (d : String) (hfresh : ∀ r ∈ s.entRecords, r.id ≠ s.nextEntId) :
    (∀ a c n, 0 ≤ a →
      (deleteExpense s.nextEntId
          (setRateRows rcad rcny (addExpense a c n d s).2)).2.entBalanceRow =
        s.entBalanceRow ∧
      (deleteExpense s.nextEntId
          (setRateRows rcad rcny (addExpense a c n d s).2)).2.entRecords =
        s.entRecords) ∧
    (∀ a,
      (deleteExpense s.nextEntId
          (setRateRows rcad rcny (rechargeEntertainment a d s).2)).2.entBalanceRow =
        s.entBalanceRow ∧
      (deleteExpense s.nextEntId
          (setRateRows rcad rcny (rechargeEntertainment a d s).2)).2.entRecords =
        s.entRecords) := by
  constructor
  · intro a c n ha
    obtain ⟨hfind, hfilter⟩ := insert_delete_aux s
      ⟨s.nextEntId, -a, c, orElseS n "消费", d,
        getRateQ s.rateCAD 1.36, getRateQ s.rateCNY 7.12⟩ hfresh rfl
    have hgR : goodRec ⟨s.nextEntId, -a, c, orElseS n "消费", d,
        getRateQ s.rateCAD 1.36, getRateQ s.rateCNY 7.12⟩ :=
      ⟨getRateQ_ne_zero _ _ (by norm_num), getRateQ_ne_zero _ _ (by norm_num),
        fun h0 => Or.inr (neg_eq_zero.mpr (le_antisymm (neg_nonneg.mp h0) ha))⟩
    constructor
    · simp only [deleteExpense, setRateRows, addExpense, hfind,
        balanceAdj_eq_neg_contrib _ hgR]
      cases hb : s.entBalanceRow with
      | none => rfl
      | some b =>
        simp only [Option.map_some']
        congr 1
        simp only [contribUSD, entInsertRate]
        rw [neg_div]
        ring
    · simp only [deleteExpense, setRateRows, addExpense, hfind, hfilter]
  · intro a
    obtain ⟨hfind, hfilter⟩ := insert_delete_aux s
      ⟨s.nextEntId, a, "USD", "充值", d,
        getRateQ s.rateCAD 1.36, getRateQ s.rateCNY 7.12⟩ hfresh rfl
    have hgR : goodRec ⟨s.nextEntId, a, "USD", "充值", d,
        getRateQ s.rateCAD 1.36, getRateQ s.rateCNY 7.12⟩ :=
      ⟨getRateQ_ne_zero _ _ (by norm_num), getRateQ_ne_zero _ _ (by norm_num),
        fun _ => Or.inl rfl⟩
    constructor
    · simp only [deleteExpense, setRateRows, rechargeEntertainment, hfind,
        balanceAdj_eq_neg_contrib _ hgR]
      cases hb : s.entBalanceRow with
      | none => rfl
      | some b =>
        simp only [Option.map_some']
        congr 1
        simp only [contribUSD, entInsertRate, expenseRate]
        rw [if_neg (by decide), if_neg (by decide)]
        ring
    · simp only [deleteExpense, setRateRows, rechargeEntertainment, hfind, hfilter]

/-- Claim C2, witness: insert an expense of 50 CAD on the fresh store,
wipe the rate rows, delete the record — balance and records are back to
the initial ones. -/
theorem deleteExpense_inverts_insert_witness :
    (deleteExpense initStore.nextEntId
        (setRateRows none none
          (addExpense 50 "CAD" none "d" initStore).2)).2.entBalanceRow =
      initStore.entBalanceRow ∧
    (deleteExpense initStore.nextEntId
        (setRateRows none none
          (addExpense 50 "CAD" none "d" initStore).2)).2.entRecords =
      initStore.entRecords :=
  (deleteExpense_inverts_insert initStore none none "d"
      (fun r hr => by simp [initStore] at hr)).1 50 "CAD" none (by norm_num)

/-- Claim C2, counterexample: inserting an expense of −10 CAD and then
deleting it does NOT restore the balance (0 becomes −45/17): deletion is
not the inverse of insertion for negative expense amounts. -/
theorem deleteExpense_inverts_insert_cex :
    (deleteExpense 1 (addExpense (-10) "CAD" none "d" initStore).2).2.entBalanceRow ≠
      initStore.entBalanceRow := by
  with_unfolding_all decide

end Ledger
